import Mathlib

/-!
# Verification of the CRM MCP adaptive-write core

Shallow embedding of the core functions of `src/lib/register-crm-tools.js`:
the field sanitizer (`sanitizeUpdates`), the error classifier
(`friendlySupabaseError`), the adaptive note inserter (`smartInsertNote`),
the association resolver (`getCompanyIdFrom`), the deals-by-contact merge,
and the generic/typed update tools.  JS objects become association lists
from field names to JSON-ish values; the Supabase client becomes an oracle
mapping (attempt index, payload) to an outcome; a thrown `Error` becomes a
`thrown` result carrying the message string; the regex tests of the source
become ordered-substring matchers over the message text.
-/

namespace CrmMcp

/-! ### Regex model

Every regex used by the source has the shape `l1.*l2.* ... .*lk` with
literal segments `li` and an `i` (case-insensitive) flag.  Such a pattern
matches a string iff the segments occur in order, case-insensitively.
`testPat msg segs` models `/seg1.*seg2...*segk/i.test(msg)`. -/

def lowerChars (s : String) : List Char := s.data.map Char.toLower

/-- First occurrence search: returns the remainder of `s` just after the
first occurrence of `p`, if `p` occurs in `s` as a contiguous sublist. -/
def findSub : List Char → List Char → Option (List Char)
  | [], p => if p.isPrefixOf ([] : List Char) then some [] else none
  | c :: cs, p =>
    if p.isPrefixOf (c :: cs) then some ((c :: cs).drop p.length)
    else findSub cs p

/-- The literal segments occur in `s`, in order, each after the previous. -/
def matchSeq : List Char → List (List Char) → Bool
  | _, [] => true
  | s, p :: ps =>
    match findSub s p with
    | some rest => matchSeq rest ps
    | none => false

/-- Model of `/l1.*l2.* ... /i.test(msg)` from the source. -/
def testPat (msg : String) (pats : List String) : Bool :=
  matchSeq (lowerChars msg) (pats.map lowerChars)

/-- `sub` occurs in `s` as a contiguous substring (used to state
"the message names the table"). -/
def containsStr (s sub : String) : Bool := (findSub s.data sub.data).isSome

/-! ### Payload model

A JS object payload is an association list from field names to values;
JS preserves key insertion order and spreads append fresh keys at the end,
which the operations below reproduce. -/

inductive JValue where
  | s (v : String)
  | n (v : Int)
  | b (v : Bool)
  | null
deriving DecidableEq, Repr

/-- JS truthiness, for `if (status)` and `author || "mcp"`. -/
def JValue.truthy : JValue → Bool
  | .s v => v ≠ ""
  | .n v => v ≠ 0
  | .b v => v
  | .null => false

abbrev Payload := List (String × JValue)

/-- `key in payload`. -/
def hasKey (p : Payload) (k : String) : Bool := p.any (fun kv => kv.1 = k)

/-- `payload[key]` (payloads built from JS objects have unique keys). -/
def getKey (p : Payload) (k : String) : Option JValue :=
  (p.find? (fun kv => kv.1 = k)).map (fun kv => kv.2)

/-- `omit(payload, k)` from the source (delete a key). -/
def omitKey (p : Payload) (k : String) : Payload := p.filter (fun kv => kv.1 ≠ k)

/-- `{ ...payload, k: v }`: overwrite in place if present, else append. -/
def setKey (p : Payload) (k : String) (v : JValue) : Payload :=
  if hasKey p k then p.map (fun kv => if kv.1 = k then (k, v) else kv)
  else p ++ [(k, v)]

/-! ### Error classifier — `friendlySupabaseError`, register-crm-tools.js:25-34

The JS function always throws; we model it as the total function from the
table name and the extracted error message to the thrown message. -/

def friendlySupabaseError (table : String) (msg : String) : String :=
  if testPat msg ["row-level security"] then
    "Write blocked by Row Level Security on \"" ++ table ++
      "\". Use a service-role key locally or adjust RLS."
  else if testPat msg ["violates foreign key constraint"] then
    "Foreign key error writing to \"" ++ table ++ "\": " ++ msg
  else msg

/-! ### Field sanitizer — `sanitizeUpdates`, register-crm-tools.js:37-44 -/

def sanitizeUpdates (rawUpdates : Payload) (allowedKeys : List String)
    (blockedKeys : List String := ["id", "created_at"]) : Payload :=
  rawUpdates.filter (fun kv =>
    !(blockedKeys.contains kv.1) && allowedKeys.contains kv.1)

/-! ### Adaptive note inserter — `smartInsertNote`, register-crm-tools.js:54-82 -/

/-- Outcome of one `supabase.from(table).insert([payload]).select().single()`. -/
inductive InsertOutcome where
  | ok (row : Payload)
  | err (msg : String)
deriving DecidableEq, Repr

/-- What the if-chain of the loop body decides for a failed attempt. -/
inductive StepAction where
  | retry (payload : Payload)
  | fatalCompanyId
  | classify
deriving DecidableEq, Repr

/-- `initialPayload.author || "mcp"`. -/
def initialAuthorOr (initialPayload : Payload) : JValue :=
  match getKey initialPayload ("author") with
  | some v => if v.truthy then v else .s ("mcp")
  | none => .s ("mcp")

/-- The if-chain on the error message, register-crm-tools.js:63-78,
in source order.  Note the first (company_id, does-not-exist) rule has no
`"company_id" in payload` guard in the source, unlike the others. -/
def stepAction (initialPayload payload : Payload) (msg : String) : StepAction :=
  if testPat msg ["column ", "company_id", " does not exist"] then
    .retry (omitKey payload ("company_id"))
  else if testPat msg ["null value in column ", "company_id", " violates"] then
    .fatalCompanyId
  else if testPat msg ["column ", "author", " does not exist"] && hasKey payload ("author") then
    .retry (setKey (omitKey payload ("author")) ("created_by") (initialAuthorOr initialPayload))
  else if testPat msg ["column ", "created_by", " does not exist"] && hasKey payload ("created_by") then
    .retry (omitKey payload ("created_by"))
  else if testPat msg ["column ", "activity_date", " does not exist"] && hasKey payload ("activity_date") then
    .retry (setKey (omitKey payload ("activity_date")) ("created_at")
      ((getKey payload ("activity_date")).getD .null))
  else if testPat msg ["column ", "created_at", " does not exist"] && hasKey payload ("created_at") then
    .retry (omitKey payload ("created_at"))
  else if testPat msg ["column ", "body", " does not exist"] && hasKey payload ("body") then
    .retry (setKey (omitKey payload ("body")) ("content") ((getKey payload ("body")).getD .null))
  else if testPat msg ["column ", "content", " does not exist"] && hasKey payload ("content") then
    .retry (omitKey payload ("content"))
  else if testPat msg ["column ", "type", " does not exist"] && hasKey payload ("type") then
    .retry (omitKey payload ("type"))
  else .classify

def requiresCompanyIdMsg (table : String) : String :=
  "This CRM requires company_id on " ++ table ++
    ". Link the entity to a company or relax NOT NULL on " ++ table ++ ".company_id."

def insertExhaustedMsg (table : String) : String :=
  "Failed to insert into " ++ table ++ " after multiple attempts."

inductive SmartResult where
  | ok (row : Payload)
  | thrown (msg : String)
deriving DecidableEq, Repr

/-- The `for (let attempt = 0; attempt < 8; attempt++)` loop, with
`fuel = 8 - attempt` remaining iterations.  The store is an oracle from
(attempt index, current payload) to the attempt's outcome. -/
def smartInsertGo (oracle : Nat → Payload → InsertOutcome) (table : String)
    (initialPayload : Payload) : Nat → Nat → Payload → SmartResult
  | 0, _, _ => .thrown (insertExhaustedMsg table)
  | fuel + 1, attempt, payload =>
    match oracle attempt payload with
    | .ok data => .ok data
    | .err msg =>
      match stepAction initialPayload payload msg with
      | .retry payload2 => smartInsertGo oracle table initialPayload fuel (attempt + 1) payload2
      | .fatalCompanyId => .thrown (requiresCompanyIdMsg table)
      | .classify => .thrown (friendlySupabaseError table msg)

def smartInsertNote (oracle : Nat → Payload → InsertOutcome) (table : String)
    (initialPayload : Payload) : SmartResult :=
  smartInsertGo oracle table initialPayload 8 0 initialPayload

/-- Number of storage insert attempts the loop issues (one oracle call per
loop iteration). -/
def smartInsertAttemptsGo (oracle : Nat → Payload → InsertOutcome)
    (initialPayload : Payload) : Nat → Nat → Payload → Nat
  | 0, _, _ => 0
  | fuel + 1, attempt, payload =>
    match oracle attempt payload with
    | .ok _ => 1
    | .err msg =>
      match stepAction initialPayload payload msg with
      | .retry payload2 => 1 + smartInsertAttemptsGo oracle initialPayload fuel (attempt + 1) payload2
      | _ => 1

def smartInsertAttempts (oracle : Nat → Payload → InsertOutcome)
    (initialPayload : Payload) : Nat :=
  smartInsertAttemptsGo oracle initialPayload 8 0 initialPayload

/-! ### Association resolver — `getCompanyIdFrom`, register-crm-tools.js:84-92 -/

/-- Outcome of `supabase.from(table).select("company_id").eq("id", id).maybeSingle()`:
either an error message, or an optional matching row carrying its
`company_id` value (`none` = no row matched). -/
inductive LookupResult where
  | ok (row : Option JValue)
  | err (msg : String)
deriving DecidableEq, Repr

def getCompanyIdFrom (lookup : LookupResult) (table : String) :
    Except String JValue :=
  match lookup with
  | .err msg =>
    if testPat msg ["column ", "company_id", " does not exist"] then .ok .null
    else .error (table ++ " lookup failed: " ++ msg)
  | .ok row => .ok (row.getD .null)

/-! ### Deals-by-contact merge — register-crm-tools.js:605-618 and 731-743

Both `crm_get_deals_by_contact` and `crm_list_contact_deals` combine the
direct matches and the junction matches with the same loop.  A deal row is
modelled as its id plus an opaque remainder; a junction row's `deals`
field may be null. -/

abbrev DealRow := String × JValue

/-- The combine-and-deduplicate loop: start from the direct deals, collect
their ids into `junctionDealIds` (the source's name for the set, which in
fact holds the direct ids), then append each junction row whose deal is
non-null and whose id is not in that fixed set. -/
def mergeDeals (directDeals : List DealRow) (junctionDeals : List (Option DealRow)) :
    List DealRow :=
  let allDeals := directDeals
  let junctionDealIds := allDeals.map (fun d => d.1)
  allDeals ++ (junctionDeals.filterMap id).filter
    (fun d => !(junctionDealIds.contains d.1))

/-- How many rows of `deals` carry id `i`. -/
def countId (deals : List DealRow) (i : String) : Nat :=
  (deals.filter (fun d => d.1 = i)).length

/-! ### Update tools — register-crm-tools.js:104-210 and 264-291

A tool run is modelled against a storage-update oracle from the patch to
the outcome; the second component of the result counts the storage writes
the tool issued. -/

inductive ToolResult where
  | ok (summary : String) (result : Option Payload)
  | thrown (msg : String)
deriving DecidableEq, Repr

/-- Common body of the four generic update tools (contact, company, lead,
deal): sanitize, short-circuit on an empty patch, otherwise one
update-by-id routed through the classifier on failure. -/
def genericUpdateTool (storageUpdate : Payload → InsertOutcome)
    (table entity : String) (allowed : List String)
    (entityId : String) (updates : Payload) : ToolResult × Nat :=
  let patch := sanitizeUpdates updates allowed
  if patch.length = 0 then (.ok ("No valid fields to update.") none, 0)
  else
    match storageUpdate patch with
    | .ok data =>
      (.ok ("Updated " ++ entity ++ " " ++ entityId ++ ".") (some data), 1)
    | .err msg => (.thrown (friendlySupabaseError table msg), 1)

def contactAllowedKeys : List String :=
  ["first_name", "last_name", "email", "phone", "company_id", "title", "notes", "full_name"]

def companyAllowedKeys : List String :=
  ["name", "website", "phone", "address", "industry", "notes"]

def leadAllowedKeys : List String :=
  ["first_name", "last_name", "email", "phone", "company", "source", "status", "message"]

def dealAllowedKeys : List String :=
  ["title", "status", "amount", "stage_id", "pipeline_id", "company_id", "contact_person_id", "notes"]

def crm_update_contact (storageUpdate : Payload → InsertOutcome)
    (contact_id : String) (updates : Payload) : ToolResult × Nat :=
  genericUpdateTool storageUpdate ("contacts") ("contact") contactAllowedKeys contact_id updates

def crm_update_company (storageUpdate : Payload → InsertOutcome)
    (company_id : String) (updates : Payload) : ToolResult × Nat :=
  genericUpdateTool storageUpdate ("companies") ("company") companyAllowedKeys company_id updates

def crm_update_lead (storageUpdate : Payload → InsertOutcome)
    (lead_id : String) (updates : Payload) : ToolResult × Nat :=
  genericUpdateTool storageUpdate ("leads") ("lead") leadAllowedKeys lead_id updates

def crm_update_deal_generic (storageUpdate : Payload → InsertOutcome)
    (deal_id : String) (updates : Payload) : ToolResult × Nat :=
  genericUpdateTool storageUpdate ("deals") ("deal") dealAllowedKeys deal_id updates

/-- The typed deal-update tool, register-crm-tools.js:264-291: builds the
patch from the truthy/defined optional inputs and always issues the
update, with no empty-patch short circuit. -/
def crm_update_deal (storageUpdate : Payload → InsertOutcome) (deal_id : String)
    (stage_id : Option String) (status : Option String) (amount : Option Int) :
    ToolResult × Nat :=
  let patch : Payload := []
  let patch := match stage_id with
    | some v => if v ≠ "" then patch ++ [("stage_id", JValue.s v)] else patch
    | none => patch
  let patch := match status with
    | some v => if v ≠ "" then patch ++ [("status", JValue.s v)] else patch
    | none => patch
  let patch := match amount with
    | some v => patch ++ [("amount", JValue.n v)]
    | none => patch
  match storageUpdate patch with
  | .ok data => (.ok ("Updated deal " ++ deal_id ++ ".") (some data), 1)
  | .err msg => (.thrown (friendlySupabaseError ("deals") msg), 1)

/-! ### Concrete stores and payloads used by the theorems below -/

/-- Canonical backend wording for an unknown-column failure. -/
def unknownColMsg (col : String) : String :=
  "column \"" ++ col ++ "\" of relation \"deal_notes\" does not exist"

/-- A store whose table `rel` has exactly the columns `cols`: an insert
fails naming the first payload field that is not a column, and succeeds
(returning the payload as the persisted row) when every field is a
column.  This is the spec's scenario store for the convergence example. -/
def tableOracle (cols : List String) : Nat → Payload → InsertOutcome :=
  fun _ payload =>
    match payload.find? (fun kv => !(cols.contains kv.1)) with
    | some kv => .err (unknownColMsg kv.1)
    | none => .ok payload

/-- Columns of the convergence example's note table: it lacks
`company_id`, `author`, `type`, `activity_date` and `body`, and has
`content`, `created_by`, `created_at` instead. -/
def convergenceCols : List String := ["deal_id", "content", "created_by", "created_at"]

/-- The convergence example's initial payload. -/
def convergenceInit : Payload :=
  [("deal_id", JValue.s ("d1")), ("body", JValue.s ("hi")), ("author", JValue.s ("mcp")),
   ("type", JValue.s ("note")), ("activity_date", JValue.s ("2024-01-01")),
   ("company_id", JValue.s ("c1"))]

/-- The row the convergence example converges to. -/
def convergenceFinal : Payload :=
  [("deal_id", JValue.s ("d1")), ("content", JValue.s ("hi")),
   ("created_by", JValue.s ("mcp")), ("created_at", JValue.s ("2024-01-01"))]

/-- A store that fails every attempt with an unknown-column message for
`company_id` (which the source handles without a presence guard). -/
def companyLoopOracle : Nat → Payload → InsertOutcome :=
  fun _ _ => .err ("column company_id does not exist")

/-- A message matching both the unknown-column pattern and the
not-null-violation pattern for `company_id`. -/
def bothPatternsMsg : String :=
  "null value in column company_id violates a rule because column company_id does not exist"

/-- A store whose first attempt fails with `bothPatternsMsg` and whose
later attempts succeed. -/
def bothPatternsOracle : Nat → Payload → InsertOutcome :=
  fun attempt payload => if attempt = 0 then .err bothPatternsMsg else .ok payload

/-- Canonical backend wording for a not-null violation on `company_id`. -/
def notNullCompanyMsg : String :=
  "null value in column \"company_id\" violates not-null constraint"

/-- A store that always fails with the not-null violation on `company_id`. -/
def notNullOracle : Nat → Payload → InsertOutcome := fun _ _ => .err notNullCompanyMsg

/-- A store update oracle that accepts any patch, for witnesses. -/
def probeStorage : Payload → InsertOutcome := fun p => .ok p

/-- Direct deals for the dedup witness. -/
def dedupDirect : List DealRow := [(("a"), JValue.s ("1"))]

/-- Junction deals for the dedup witness: one overlapping id, one fresh. -/
def dedupJunction : List (Option DealRow) :=
  [some (("a"), JValue.s ("2")), some (("b"), JValue.s ("3"))]

/-- Payload used in the fatal-shadowing counterexample. -/
def shadowInit : Payload := [("deal_id", JValue.s ("d")), ("company_id", JValue.s ("c"))]

/-- Updates consisting only of a blocked key and a disallowed key. -/
def blockedOnlyUpdates : Payload := [("id", JValue.s ("x")), ("bogus", JValue.s ("y"))]

/-- The fields whose drop/rename rules carry a `field in payload` guard in
the source (every rule except the `company_id` drop rule). -/
def guardedFields : List String :=
  ["author", "created_by", "activity_date", "created_at", "body", "content", "type"]

/-! ## Helper lemmas -/

theorem findSub_append_isSome (a t b : List Char) :
    (findSub (a ++ (t ++ b)) t).isSome = true := by
  induction a with
  | nil =>
    have hpre : t.isPrefixOf (t ++ b) = true := by
      rw [List.isPrefixOf_iff_prefix]
      exact List.prefix_append t b
    cases h : t ++ b with
    | nil =>
      have ht : t = [] := by
        cases t with
        | nil => rfl
        | cons c cs => simp at h
      simp [ht, findSub]
    | cons c cs =>
      rw [h] at hpre
      simp [findSub, hpre]
  | cons c a ih =>
    by_cases hpre : t.isPrefixOf (c :: (a ++ (t ++ b)))
    · simp [findSub, hpre]
    · simpa [findSub, hpre] using ih

/-- The table name occurs in a message built as `x ++ table ++ y`. -/
theorem containsStr_append (x t y : String) : containsStr (x ++ t ++ y) t = true := by
  unfold containsStr
  rw [String.data_append, String.data_append, List.append_assoc]
  exact findSub_append_isSome x.data t.data y.data

/-- The table name occurs in a message built as `table ++ y`. -/
theorem containsStr_prefix (t y : String) : containsStr (t ++ y) t = true := by
  unfold containsStr
  rw [String.data_append]
  exact findSub_append_isSome [] t.data y.data

theorem hasKey_filter (U : Payload) (p : String → Bool) (k : String) :
    hasKey (U.filter (fun kv => p kv.1)) k = (hasKey U k && p k) := by
  induction U with
  | nil => simp [hasKey]
  | cons kv U ih =>
    by_cases hpk : p kv.1 = true
    · rw [List.filter_cons_of_pos (by simpa using hpk)]
      simp only [hasKey, List.any_cons] at ih ⊢
      rw [ih]
      by_cases hk : kv.1 = k
      · rw [hk] at hpk
        simp [hk, hpk]
      · simp [hk]
    · rw [List.filter_cons_of_neg (by simpa using hpk)]
      simp only [hasKey, List.any_cons] at ih ⊢
      rw [ih]
      by_cases hk : kv.1 = k
      · rw [hk] at hpk
        simp [hk, Bool.eq_false_iff.mpr hpk]
      · simp [hk]

theorem sanitizeUpdates_eq_nil (U : Payload) (A B : List String)
    (h : ∀ kv ∈ U, B.contains kv.1 = true ∨ A.contains kv.1 = false) :
    sanitizeUpdates U A B = [] := by
  unfold sanitizeUpdates
  rw [List.filter_eq_nil_iff]
  intro kv hkv
  rcases h kv hkv with hb | ha
  · rw [hb]
    simp
  · rw [ha]
    simp

theorem countId_append (l1 l2 : List DealRow) (i : String) :
    countId (l1 ++ l2) i = countId l1 i + countId l2 i := by
  simp [countId, List.filter_append]

theorem countId_cons (d : DealRow) (l : List DealRow) (i : String) :
    countId (d :: l) i = (if d.1 = i then 1 else 0) + countId l i := by
  simp only [countId, List.filter_cons]
  by_cases hd : d.1 = i
  · simp [hd, Nat.add_comm]
  · simp [hd]

theorem countId_of_not_mem (l : List DealRow) (i : String)
    (h : i ∉ l.map (fun d => d.1)) : countId l i = 0 := by
  induction l with
  | nil => rfl
  | cons d l ih =>
    simp only [List.map_cons, List.mem_cons, not_or] at h
    rw [countId_cons, if_neg (fun hd => h.1 hd.symm), ih h.2]

theorem countId_of_nodup_mem (l : List DealRow) (i : String)
    (hn : (l.map (fun d => d.1)).Nodup) (hm : i ∈ l.map (fun d => d.1)) :
    countId l i = 1 := by
  induction l with
  | nil => simp at hm
  | cons d l ih =>
    simp only [List.map_cons, List.nodup_cons] at hn
    simp only [List.map_cons, List.mem_cons] at hm
    rcases hm with hm | hm
    · rw [countId_cons, if_pos hm.symm,
        countId_of_not_mem l i (by rw [hm]; exact hn.1)]
    · have hne : ¬ d.1 = i := fun hd => hn.1 (by rw [hd]; exact hm)
      rw [countId_cons, if_neg hne, ih hn.2 hm]

theorem contains_eq_true_iff (l : List String) (a : String) :
    l.contains a = true ↔ a ∈ l := List.elem_iff

theorem countId_filter_of_mem (l : List DealRow) (ids : List String) (i : String)
    (h : i ∈ ids) :
    countId (l.filter (fun d => !(ids.contains d.1))) i = 0 := by
  induction l with
  | nil => rfl
  | cons d l ih =>
    by_cases hd : d.1 = i
    · have hc : ids.contains d.1 = true := by
        rw [hd]
        exact (contains_eq_true_iff ids i).mpr h
      rw [List.filter_cons_of_neg (by rw [hc]; simp)]
      exact ih
    · by_cases hc : ids.contains d.1 = true
      · rw [List.filter_cons_of_neg (by rw [hc]; simp)]
        exact ih
      · have hc2 : ids.contains d.1 = false := Bool.eq_false_iff.mpr hc
        rw [List.filter_cons_of_pos (by rw [hc2]; rfl), countId_cons, if_neg hd, ih]

theorem countId_filter_of_not_mem (l : List DealRow) (ids : List String) (i : String)
    (h : i ∉ ids) :
    countId (l.filter (fun d => !(ids.contains d.1))) i = countId l i := by
  induction l with
  | nil => rfl
  | cons d l ih =>
    by_cases hd : d.1 = i
    · have hc : ids.contains d.1 = false := by
        rw [hd]
        exact Bool.eq_false_iff.mpr (fun hcc => h ((contains_eq_true_iff ids i).mp hcc))
      rw [List.filter_cons_of_pos (by rw [hc]; rfl), countId_cons, countId_cons,
        if_pos hd, ih]
    · by_cases hc : ids.contains d.1 = true
      · rw [List.filter_cons_of_neg (by rw [hc]; simp), countId_cons, if_neg hd, ih]
        simp
      · have hc2 : ids.contains d.1 = false := Bool.eq_false_iff.mpr hc
        rw [List.filter_cons_of_pos (by rw [hc2]; rfl), countId_cons, countId_cons,
          if_neg hd, ih]

/-- If no branch condition of the if-chain holds, the loop body falls
through to the classifier.  Each guarded rule's condition is refuted either
by its pattern or by its presence guard. -/
theorem stepAction_classify_of (init p : Payload) (m : String)
    (h1 : testPat m ["column ", "company_id", " does not exist"] = false)
    (h2 : testPat m ["null value in column ", "company_id", " violates"] = false)
    (h3 : testPat m ["column ", "author", " does not exist"] = false ∨ hasKey p ("author") = false)
    (h4 : testPat m ["column ", "created_by", " does not exist"] = false ∨ hasKey p ("created_by") = false)
    (h5 : testPat m ["column ", "activity_date", " does not exist"] = false ∨ hasKey p ("activity_date") = false)
    (h6 : testPat m ["column ", "created_at", " does not exist"] = false ∨ hasKey p ("created_at") = false)
    (h7 : testPat m ["column ", "body", " does not exist"] = false ∨ hasKey p ("body") = false)
    (h8 : testPat m ["column ", "content", " does not exist"] = false ∨ hasKey p ("content") = false)
    (h9 : testPat m ["column ", "type", " does not exist"] = false ∨ hasKey p ("type") = false) :
    stepAction init p m = .classify := by
  have e3 : (testPat m ["column ", "author", " does not exist"] && hasKey p ("author")) = false := by
    rcases h3 with h | h <;> simp [h]
  have e4 : (testPat m ["column ", "created_by", " does not exist"] && hasKey p ("created_by")) = false := by
    rcases h4 with h | h <;> simp [h]
  have e5 : (testPat m ["column ", "activity_date", " does not exist"] && hasKey p ("activity_date")) = false := by
    rcases h5 with h | h <;> simp [h]
  have e6 : (testPat m ["column ", "created_at", " does not exist"] && hasKey p ("created_at")) = false := by
    rcases h6 with h | h <;> simp [h]
  have e7 : (testPat m ["column ", "body", " does not exist"] && hasKey p ("body")) = false := by
    rcases h7 with h | h <;> simp [h]
  have e8 : (testPat m ["column ", "content", " does not exist"] && hasKey p ("content")) = false := by
    rcases h8 with h | h <;> simp [h]
  have e9 : (testPat m ["column ", "type", " does not exist"] && hasKey p ("type")) = false := by
    rcases h9 with h | h <;> simp [h]
  unfold stepAction
  simp [h1, h2, e3, e4, e5, e6, e7, e8, e9]

/-- If the message matches the not-null pattern for `company_id` but not
the unknown-column pattern checked before it, the chain picks the fatal
branch. -/
theorem stepAction_fatal_of (init p : Payload) (m : String)
    (h1 : testPat m ["column ", "company_id", " does not exist"] = false)
    (h2 : testPat m ["null value in column ", "company_id", " violates"] = true) :
    stepAction init p m = .fatalCompanyId := by
  unfold stepAction
  simp [h1, h2]

/-- The loop issues at most `fuel` storage attempts. -/
theorem smartInsertAttemptsGo_le (oracle : Nat → Payload → InsertOutcome)
    (init : Payload) :
    ∀ fuel attempt payload, smartInsertAttemptsGo oracle init fuel attempt payload ≤ fuel := by
  intro fuel
  induction fuel with
  | zero => intro attempt payload; simp [smartInsertAttemptsGo]
  | succ fuel ih =>
    intro attempt payload
    unfold smartInsertAttemptsGo
    cases ho : oracle attempt payload with
    | ok data =>
      simp only [ho]
      omega
    | err msg =>
      simp only [ho]
      cases hs : stepAction init payload msg with
      | retry payload2 =>
        simp only [hs]
        have := ih (attempt + 1) payload2
        omega
      | fatalCompanyId =>
        simp only [hs]
        omega
      | classify =>
        simp only [hs]
        omega

/-- If every attempt fails with a message the chain treats as retryable,
the loop runs out of fuel and throws the exhaustion error. -/
theorem smartInsertGo_exhausts (oracle : Nat → Payload → InsertOutcome)
    (table : String) (init : Payload)
    (h : ∀ n p, ∃ m p2, oracle n p = .err m ∧ stepAction init p m = .retry p2) :
    ∀ fuel attempt payload,
      smartInsertGo oracle table init fuel attempt payload = .thrown (insertExhaustedMsg table) := by
  intro fuel
  induction fuel with
  | zero => intro attempt payload; rfl
  | succ fuel ih =>
    intro attempt payload
    obtain ⟨m, p2, hm, hs⟩ := h attempt payload
    unfold smartInsertGo
    simp only [hm, hs]
    exact ih (attempt + 1) p2

/-- A message matching the first (unguarded) unknown-column rule for
`company_id` makes the chain drop that key, whatever the payload. -/
theorem stepAction_company_drop (init p : Payload) (m : String)
    (h : testPat m ["column ", "company_id", " does not exist"] = true) :
    stepAction init p m = .retry (omitKey p ("company_id")) := by
  unfold stepAction
  simp [h]

/-! ## Claims -/

/-- C1, counterexample: in the spec's convergence scenario the inserter
does converge to the expected payload and succeed, but only after 5
recoverable-error cycles (6 storage attempts), not at most 4: the table
also lacks `body` (it has `content` instead), so the body-to-content
rename consumes a fifth cycle, and without it the final payload could not
contain `content: "hi"`. -/
theorem convergence_needs_five_cycles :
    smartInsertNote (tableOracle convergenceCols) ("deal_notes") convergenceInit
        = .ok convergenceFinal
      ∧ smartInsertAttempts (tableOracle convergenceCols) convergenceInit = 6
      ∧ ¬ (smartInsertAttempts (tableOracle convergenceCols) convergenceInit - 1 ≤ 4) := by
  refine ⟨by decide, by decide, by decide⟩

/-- C1, amended: in the convergence scenario the inserter converges after
exactly 5 recoverable-error cycles (6 storage attempts, within the budget
of 8) to a payload carrying `deal_id`, `created_by: "mcp"`,
`created_at: "2024-01-01"` and `content: "hi"`, and succeeds. -/
theorem convergence_example :
    smartInsertNote (tableOracle convergenceCols) ("deal_notes") convergenceInit
        = .ok convergenceFinal
      ∧ smartInsertAttempts (tableOracle convergenceCols) convergenceInit = 6
      ∧ hasKey convergenceFinal ("deal_id") = true
      ∧ getKey convergenceFinal ("created_by") = some (JValue.s ("mcp"))
      ∧ getKey convergenceFinal ("created_at") = some (JValue.s ("2024-01-01"))
      ∧ getKey convergenceFinal ("content") = some (JValue.s ("hi")) := by
  refine ⟨by decide, by decide, by decide, by decide, by decide, by decide⟩

/-- C5, counterexample: the `company_id` drop rule is not self-guarded.
On a payload without `company_id` and an unknown-column message naming
`company_id`, the rule still fires (a no-op retry consuming an attempt)
instead of falling through to the classifier; a store that always reports
that message burns all 8 attempts and exhausts, where a guarded rule
would have classified the first failure. -/
theorem companyId_rule_unguarded :
    hasKey [("body", JValue.s ("hi"))] ("company_id") = false
      ∧ stepAction [] [("body", JValue.s ("hi"))] (unknownColMsg ("company_id"))
          = .retry [("body", JValue.s ("hi"))]
      ∧ smartInsertNote companyLoopOracle ("deal_notes") [("body", JValue.s ("hi"))]
          = .thrown (insertExhaustedMsg ("deal_notes"))
      ∧ smartInsertAttempts companyLoopOracle [("body", JValue.s ("hi"))] = 8 := by
  refine ⟨by decide, by decide, by decide, by decide⟩

/-- C5, amended: every reversible rule except the `company_id` drop rule
is self-guarded: for each of the seven guarded fields, if the field is
absent from the current payload then an unknown-column message naming it
does not fire the rule but falls through to the classifier. -/
theorem stepAction_self_guarded (init p : Payload) (x : String)
    (hx : x ∈ guardedFields) (hp : hasKey p x = false) :
    stepAction init p (unknownColMsg x) = .classify := by
  simp only [guardedFields, List.mem_cons, List.not_mem_nil, or_false] at hx
  rcases hx with rfl | rfl | rfl | rfl | rfl | rfl | rfl
  · exact stepAction_classify_of init p _ (by decide) (by decide) (Or.inr hp)
      (Or.inl (by decide)) (Or.inl (by decide)) (Or.inl (by decide))
      (Or.inl (by decide)) (Or.inl (by decide)) (Or.inl (by decide))
  · exact stepAction_classify_of init p _ (by decide) (by decide) (Or.inl (by decide))
      (Or.inr hp) (Or.inl (by decide)) (Or.inl (by decide))
      (Or.inl (by decide)) (Or.inl (by decide)) (Or.inl (by decide))
  · exact stepAction_classify_of init p _ (by decide) (by decide) (Or.inl (by decide))
      (Or.inl (by decide)) (Or.inr hp) (Or.inl (by decide))
      (Or.inl (by decide)) (Or.inl (by decide)) (Or.inl (by decide))
  · exact stepAction_classify_of init p _ (by decide) (by decide) (Or.inl (by decide))
      (Or.inl (by decide)) (Or.inl (by decide)) (Or.inr hp)
      (Or.inl (by decide)) (Or.inl (by decide)) (Or.inl (by decide))
  · exact stepAction_classify_of init p _ (by decide) (by decide) (Or.inl (by decide))
      (Or.inl (by decide)) (Or.inl (by decide)) (Or.inl (by decide))
      (Or.inr hp) (Or.inl (by decide)) (Or.inl (by decide))
  · exact stepAction_classify_of init p _ (by decide) (by decide) (Or.inl (by decide))
      (Or.inl (by decide)) (Or.inl (by decide)) (Or.inl (by decide))
      (Or.inl (by decide)) (Or.inr hp) (Or.inl (by decide))
  · exact stepAction_classify_of init p _ (by decide) (by decide) (Or.inl (by decide))
      (Or.inl (by decide)) (Or.inl (by decide)) (Or.inl (by decide))
      (Or.inl (by decide)) (Or.inl (by decide)) (Or.inr hp)

/-- C5, witness for the amended theorem at a concrete field and payload. -/
theorem stepAction_self_guarded_witness :
    stepAction [] [("deal_id", JValue.s ("d"))] (unknownColMsg ("author")) = .classify :=
  stepAction_self_guarded [] [("deal_id", JValue.s ("d"))] ("author") (by decide) (by decide)

/-- C6, counterexample: a message matching both the not-null-violation
pattern and the unknown-column pattern for `company_id` is handled by the
unknown-column rule, which the source checks first: the inserter applies
the drop transformation, consumes another attempt, and can then succeed,
instead of terminating immediately with the fatal error. -/
theorem fatal_pattern_shadowed :
    testPat bothPatternsMsg ["null value in column ", "company_id", " violates"] = true
      ∧ stepAction [] shadowInit bothPatternsMsg = .retry [("deal_id", JValue.s ("d"))]
      ∧ smartInsertNote bothPatternsOracle ("deal_notes") shadowInit
          = .ok [("deal_id", JValue.s ("d"))]
      ∧ smartInsertAttempts bothPatternsOracle shadowInit = 2 := by
  refine ⟨by decide, by decide, by decide, by decide⟩

/-- C6, amended: if an attempt fails with a message matching the
not-null-violation pattern for `company_id` and not matching the
unknown-column pattern checked before it, the inserter terminates
immediately with the fatal error naming the table and consumes no further
attempts, whatever transformations would otherwise apply. -/
theorem smartInsert_fatal_short_circuit (oracle : Nat → Payload → InsertOutcome)
    (table : String) (init payload : Payload) (fuel attempt : Nat) (m : String)
    (ho : oracle attempt payload = .err m)
    (h2 : testPat m ["null value in column ", "company_id", " violates"] = true)
    (h1 : testPat m ["column ", "company_id", " does not exist"] = false) :
    smartInsertGo oracle table init (fuel + 1) attempt payload
        = .thrown (requiresCompanyIdMsg table)
      ∧ smartInsertAttemptsGo oracle init (fuel + 1) attempt payload = 1 := by
  have hs := stepAction_fatal_of init payload m h1 h2
  constructor
  · unfold smartInsertGo
    simp only [ho, hs]
  · unfold smartInsertAttemptsGo
    simp only [ho, hs]

/-- C6, witness for the amended theorem: the canonical not-null message
fatally stops the run on the first attempt. -/
theorem smartInsert_fatal_short_circuit_witness :
    smartInsertGo notNullOracle ("deal_notes") [("deal_id", JValue.s ("d"))] 8 0
        [("deal_id", JValue.s ("d"))] = .thrown (requiresCompanyIdMsg ("deal_notes"))
      ∧ smartInsertAttemptsGo notNullOracle [("deal_id", JValue.s ("d"))] 8 0
          [("deal_id", JValue.s ("d"))] = 1 :=
  smartInsert_fatal_short_circuit notNullOracle ("deal_notes")
    [("deal_id", JValue.s ("d"))] [("deal_id", JValue.s ("d"))] 7 0 notNullCompanyMsg
    rfl (by decide) (by decide)

/-- C2: for every store, table and initial payload, one invocation of the
adaptive inserter issues at most 8 storage attempts; and if every attempt
fails with a message the chain treats as retryable (no success and no
fatal or classified termination), the run ends in the exhaustion failure,
whose message names the table. -/
theorem smartInsertNote_attempt_bound (oracle : Nat → Payload → InsertOutcome)
    (table : String) (init : Payload) :
    smartInsertAttempts oracle init ≤ 8
      ∧ ((∀ n p, ∃ m p2, oracle n p = .err m ∧ stepAction init p m = .retry p2) →
          smartInsertNote oracle table init = .thrown (insertExhaustedMsg table)
            ∧ containsStr (insertExhaustedMsg table) table = true) := by
  refine ⟨smartInsertAttemptsGo_le oracle init 8 0 init,
    fun h => ⟨smartInsertGo_exhausts oracle table init h 8 0 init, ?_⟩⟩
  unfold insertExhaustedMsg
  exact containsStr_append _ table _

/-- C2, witness: the always-failing unknown-column store exhausts the
budget within 8 attempts. -/
theorem smartInsertNote_attempt_bound_witness :
    smartInsertAttempts companyLoopOracle [("body", JValue.s ("hi"))] ≤ 8
      ∧ smartInsertNote companyLoopOracle ("deal_notes") [("body", JValue.s ("hi"))]
          = .thrown (insertExhaustedMsg ("deal_notes")) := by
  have h := smartInsertNote_attempt_bound companyLoopOracle ("deal_notes")
    [("body", JValue.s ("hi"))]
  exact ⟨h.1, (h.2 (fun n p =>
    ⟨_, _, rfl, stepAction_company_drop _ p _ (by decide)⟩)).1⟩

/-- C3: the sanitizer keeps exactly the keys that are present in the raw
updates, allowed, and not blocked; a blocked key is excluded even when it
is also allowed.  The model is a pure function of its three inputs. -/
theorem sanitizeUpdates_key_iff (U : Payload) (A B : List String) (k : String) :
    hasKey (sanitizeUpdates U A B) k
      = (hasKey U k && A.contains k && !(B.contains k)) := by
  have h := hasKey_filter U (fun x => !(B.contains x) && A.contains x) k
  calc hasKey (sanitizeUpdates U A B) k
      = (hasKey U k && (!(B.contains k) && A.contains k)) := h
    _ = (hasKey U k && A.contains k && !(B.contains k)) := by
        cases hasKey U k <;> cases A.contains k <;> cases B.contains k <;> rfl

/-- C4, counterexample: two junction rows carrying the same deal id (not
among the direct matches) are both appended, because the dedup set is
never extended inside the loop; the merged result then holds that id
twice, refuting "each distinct deal id exactly once" for arbitrary
junction lists. -/
theorem mergeDeals_duplicate_junction :
    countId (mergeDeals [] [some ("x", JValue.s ("a")), some ("x", JValue.s ("b"))]) ("x") = 2
      ∧ ¬ countId (mergeDeals [] [some ("x", JValue.s ("a")), some ("x", JValue.s ("b"))]) ("x")
          = 1 := by
  refine ⟨by decide, by decide⟩

/-- C4, amended: when the direct rows have pairwise-distinct ids and the
non-null junction rows have pairwise-distinct ids, the merged result
contains each id present in either source exactly once and no other id,
and every direct row is kept, so the direct row is preferred when an id
appears in both sources. -/
theorem mergeDeals_dedup (D : List DealRow) (J : List (Option DealRow)) (i : String)
    (hD : (D.map (fun d => d.1)).Nodup)
    (hJ : ((J.filterMap id).map (fun d => d.1)).Nodup) :
    (countId (mergeDeals D J) i
        = if i ∈ D.map (fun d => d.1) ∨ i ∈ (J.filterMap id).map (fun d => d.1)
          then 1 else 0)
      ∧ ∀ d ∈ D, d ∈ mergeDeals D J := by
  constructor
  · have hm : mergeDeals D J
        = D ++ (J.filterMap id).filter
            (fun d => !((D.map (fun d => d.1)).contains d.1)) := rfl
    rw [hm, countId_append]
    by_cases hDi : i ∈ D.map (fun d => d.1)
    · rw [countId_of_nodup_mem D i hD hDi, countId_filter_of_mem _ _ _ hDi,
        if_pos (Or.inl hDi)]
    · rw [countId_of_not_mem D i hDi, countId_filter_of_not_mem _ _ _ hDi]
      by_cases hJi : i ∈ (J.filterMap id).map (fun d => d.1)
      · rw [countId_of_nodup_mem _ i hJ hJi, if_pos (Or.inr hJi)]
      · rw [countId_of_not_mem _ i hJi, if_neg (not_or.mpr ⟨hDi, hJi⟩)]
  · intro d hd
    show d ∈ D ++ (J.filterMap id).filter
      (fun d => !((D.map (fun d => d.1)).contains d.1))
    exact List.mem_append_left _ hd

/-- C4, witness: one overlapping id and one fresh id merge to one row
each, keeping the direct row for the overlap. -/
theorem mergeDeals_dedup_witness :
    countId (mergeDeals dedupDirect dedupJunction) ("a") = 1
      ∧ ("a", JValue.s ("1")) ∈ mergeDeals dedupDirect dedupJunction := by
  have h := mergeDeals_dedup dedupDirect dedupJunction ("a") (by decide) (by decide)
  refine ⟨?_, h.2 _ (by decide)⟩
  rw [h.1, if_pos (Or.inl (by decide))]

/-- C7: the association resolver returns null (not an error) when the
lookup fails with an unknown-column message naming `company_id`, when no
row matches, and when the stored value is itself null; any other lookup
failure is an error whose message names the table. -/
theorem getCompanyIdFrom_null_tolerance (table m : String) :
    (testPat m ["column ", "company_id", " does not exist"] = true →
        getCompanyIdFrom (.err m) table = .ok .null)
      ∧ getCompanyIdFrom (.ok none) table = .ok .null
      ∧ getCompanyIdFrom (.ok (some .null)) table = .ok .null
      ∧ (testPat m ["column ", "company_id", " does not exist"] = false →
          getCompanyIdFrom (.err m) table = .error (table ++ " lookup failed: " ++ m)
            ∧ containsStr (table ++ " lookup failed: " ++ m) table = true) := by
  refine ⟨fun h => ?_, rfl, rfl, fun h => ⟨?_, ?_⟩⟩
  · simp [getCompanyIdFrom, h]
  · simp [getCompanyIdFrom, h]
  · rw [String.append_assoc]
    exact containsStr_prefix table _

/-- C7, witness at a concrete table, message and row. -/
theorem getCompanyIdFrom_null_tolerance_witness :
    getCompanyIdFrom (.err ("column company_id does not exist")) ("deals") = .ok .null
      ∧ getCompanyIdFrom (.err ("boom")) ("deals")
          = .error (("deals") ++ (" lookup failed: ") ++ ("boom")) :=
  ⟨(getCompanyIdFrom_null_tolerance ("deals") ("column company_id does not exist")).1
      (by decide),
    ((getCompanyIdFrom_null_tolerance ("deals") ("boom")).2.2.2 (by decide)).1⟩

/-- C8: each generic update tool, given an updates mapping whose every key
is blocked or not in that tool's allow-list, issues zero storage writes
and returns the success envelope saying nothing was updated (so the
storage state is untouched by the call). -/
theorem updateTools_empty_patch (storage : Payload → InsertOutcome)
    (eid : String) (updates : Payload) :
    ((∀ kv ∈ updates, (["id", "created_at"] : List String).contains kv.1 = true
          ∨ contactAllowedKeys.contains kv.1 = false) →
        crm_update_contact storage eid updates
          = (.ok ("No valid fields to update.") none, 0))
      ∧ ((∀ kv ∈ updates, (["id", "created_at"] : List String).contains kv.1 = true
            ∨ companyAllowedKeys.contains kv.1 = false) →
          crm_update_company storage eid updates
            = (.ok ("No valid fields to update.") none, 0))
      ∧ ((∀ kv ∈ updates, (["id", "created_at"] : List String).contains kv.1 = true
            ∨ leadAllowedKeys.contains kv.1 = false) →
          crm_update_lead storage eid updates
            = (.ok ("No valid fields to update.") none, 0))
      ∧ ((∀ kv ∈ updates, (["id", "created_at"] : List String).contains kv.1 = true
            ∨ dealAllowedKeys.contains kv.1 = false) →
          crm_update_deal_generic storage eid updates
            = (.ok ("No valid fields to update.") none, 0)) := by
  refine ⟨fun h => ?_, fun h => ?_, fun h => ?_, fun h => ?_⟩
  · have hnil := sanitizeUpdates_eq_nil updates contactAllowedKeys ["id", "created_at"] h
    simp [crm_update_contact, genericUpdateTool, hnil]
  · have hnil := sanitizeUpdates_eq_nil updates companyAllowedKeys ["id", "created_at"] h
    simp [crm_update_company, genericUpdateTool, hnil]
  · have hnil := sanitizeUpdates_eq_nil updates leadAllowedKeys ["id", "created_at"] h
    simp [crm_update_lead, genericUpdateTool, hnil]
  · have hnil := sanitizeUpdates_eq_nil updates dealAllowedKeys ["id", "created_at"] h
    simp [crm_update_deal_generic, genericUpdateTool, hnil]

/-- C8, witness: an updates mapping holding only the blocked `id` and an
unknown key short-circuits all four tools with zero writes. -/
theorem updateTools_empty_patch_witness :
    crm_update_contact probeStorage ("e1") blockedOnlyUpdates
        = (.ok ("No valid fields to update.") none, 0)
      ∧ crm_update_company probeStorage ("e1") blockedOnlyUpdates
          = (.ok ("No valid fields to update.") none, 0)
      ∧ crm_update_lead probeStorage ("e1") blockedOnlyUpdates
          = (.ok ("No valid fields to update.") none, 0)
      ∧ crm_update_deal_generic probeStorage ("e1") blockedOnlyUpdates
          = (.ok ("No valid fields to update.") none, 0) := by
  have h := updateTools_empty_patch probeStorage ("e1") blockedOnlyUpdates
  exact ⟨h.1 (by decide), h.2.1 (by decide), h.2.2.1 (by decide), h.2.2.2 (by decide)⟩

/-- C9, counterexample: in the fallback case the classifier raises the raw
backend message unchanged, which need not name the offending table. -/
theorem classifier_fallback_lacks_table :
    friendlySupabaseError ("deals") ("boom") = "boom"
      ∧ containsStr ("boom") ("deals") = false := by
  refine ⟨by decide, by decide⟩

/-- C9, amended: the classifier always raises; the row-level-security and
foreign-key branches raise messages naming the table, while the fallback
branch raises exactly the raw message, which does not necessarily include
the table name. -/
theorem friendlySupabaseError_cases (table m : String) :
    (testPat m ["row-level security"] = true →
        friendlySupabaseError table m
            = "Write blocked by Row Level Security on \"" ++ table
                ++ "\". Use a service-role key locally or adjust RLS."
          ∧ containsStr (friendlySupabaseError table m) table = true)
      ∧ (testPat m ["row-level security"] = false →
          testPat m ["violates foreign key constraint"] = true →
            friendlySupabaseError table m
                = "Foreign key error writing to \"" ++ table ++ "\": " ++ m
              ∧ containsStr (friendlySupabaseError table m) table = true)
      ∧ (testPat m ["row-level security"] = false →
          testPat m ["violates foreign key constraint"] = false →
            friendlySupabaseError table m = m) := by
  refine ⟨fun h => ?_, fun h1 h2 => ?_, fun h1 h2 => ?_⟩
  · have e : friendlySupabaseError table m
        = "Write blocked by Row Level Security on \"" ++ table
            ++ "\". Use a service-role key locally or adjust RLS." := by
      simp [friendlySupabaseError, h]
    refine ⟨e, ?_⟩
    rw [e]
    exact containsStr_append _ table _
  · have e : friendlySupabaseError table m
        = "Foreign key error writing to \"" ++ table ++ "\": " ++ m := by
      simp [friendlySupabaseError, h1, h2]
    refine ⟨e, ?_⟩
    rw [e, String.append_assoc]
    exact containsStr_append _ table _
  · simp [friendlySupabaseError, h1, h2]

/-- C9, witness for the amended theorem at concrete messages. -/
theorem friendlySupabaseError_cases_witness :
    friendlySupabaseError ("deals") ("new row violates row-level security policy")
        = "Write blocked by Row Level Security on \"" ++ ("deals")
            ++ "\". Use a service-role key locally or adjust RLS."
      ∧ friendlySupabaseError ("deals") ("insert violates foreign key constraint x")
          = "Foreign key error writing to \"" ++ ("deals") ++ "\": "
              ++ ("insert violates foreign key constraint x")
      ∧ friendlySupabaseError ("deals") ("boom2") = "boom2" :=
  ⟨((friendlySupabaseError_cases ("deals")
        ("new row violates row-level security policy")).1 (by decide)).1,
    ((friendlySupabaseError_cases ("deals")
        ("insert violates foreign key constraint x")).2.1 (by decide) (by decide)).1,
    (friendlySupabaseError_cases ("deals") ("boom2")).2.2 (by decide) (by decide)⟩

/-- C10: the typed deal-update tool has no empty-patch short circuit: with
no stage, no (or empty-string) status and no amount supplied, it still
issues exactly one storage update carrying the empty patch against the
deals table, and the outcome is whatever the store returns, routed through
the classifier on failure. -/
theorem crm_update_deal_no_short_circuit (storage : Payload → InsertOutcome)
    (d : String) :
    crm_update_deal storage d none none none
        = (match storage [] with
            | .ok data => (ToolResult.ok ("Updated deal " ++ d ++ ".") (some data), 1)
            | .err m => (ToolResult.thrown (friendlySupabaseError ("deals") m), 1))
      ∧ crm_update_deal storage d none (some ("")) none
          = (match storage [] with
              | .ok data => (ToolResult.ok ("Updated deal " ++ d ++ ".") (some data), 1)
              | .err m => (ToolResult.thrown (friendlySupabaseError ("deals") m), 1))
      ∧ (crm_update_deal storage d none none none).2 = 1 := by
  refine ⟨?_, ?_, ?_⟩
  · cases ho : storage [] <;> simp [crm_update_deal, ho]
  · cases ho : storage [] <;> simp [crm_update_deal, ho]
  · cases ho : storage [] <;> simp [crm_update_deal, ho]

end CrmMcp
